import Mathlib

/-!
# License-status event store (`transactions/transactions.go`)

A shallow embedding of the `transactions` package.  The Go code is a thin layer
over `database/sql`; the storage engine is represented by an explicit state
`DB` (the rows of table `event` in cursor order, the id the engine assigns to a
row inserted with a NULL id, and the errors the engine raises when a statement is
prepared or run).  Every operation threads that state.  A run-time fault of the
Go code (a nil `*sql.Stmt` or nil `*sql.Rows` being dereferenced, an index
outside `status.Types`) is the result `none`.

The package `status` is imported but its source is not part of this
development: `status.Types` and `status.GetStatus` are parameters.
-/

namespace Transactions

/-! ## Data model -/

/-- A `time.Time` value, as an instant on an integer time line.  The zero
`time.Time{}` is `0`. -/
abbrev Time := Int

/-- The `error` values that can occur.  Go's nil error is `Option.none`. -/
inductive Error
  /-- The error `transactions.NotFound`, "Event not found". -/
  | NotFound
  /-- The error `sql.ErrNoRows`, what `Row.Scan` returns when the query has no row. -/
  | ErrNoRows
  /-- The error of `Rows.Scan` on NULL, in the column with this index, for a `*string`. -/
  | ScanNull (column : Nat)
  /-- The engine rejected a row whose primary key is already present. -/
  | Constraint
  /-- The arguments do not fit the placeholders of the statement. -/
  | BadArgs
  /-- Any other failure of the storage engine. -/
  | Storage (code : Nat)
  deriving DecidableEq

/-- The struct `Device`. -/
structure Device where
  DeviceId : String
  DeviceName : String
  Timestamp : Time
  deriving DecidableEq

/-- The struct `Event`; the Go field `Type` is `Type_` here. -/
structure Event where
  Id : Int
  DeviceName : String
  Timestamp : Time
  Type_ : String
  DeviceId : String
  LicenseStatusFk : Int
  deriving DecidableEq

/-- The zero value `Event{}`. -/
def Event.zero : Event := ⟨0, "", 0, "", "", 0⟩

/-- The zero value `Device{}`. -/
def Device.zero : Device := ⟨"", "", 0⟩

/-- One row of table `event` as declared by `tableDef`: `device_name` and
`device_id` are nullable, the other columns are NOT NULL. -/
structure Row where
  id : Int
  device_name : Option String
  timestamp : Time
  type : Int
  device_id : Option String
  license_status_fk : Int
  deriving DecidableEq

/-- The SQL texts that occur in the package. -/
inductive Sql
  /-- The constant `tableDef`: CREATE TABLE IF NOT EXISTS event (...). -/
  | createTable
  /-- SELECT * FROM event WHERE id = ? LIMIT 1 -/
  | selectById
  /-- SELECT * FROM event WHERE license_status_fk = ? -/
  | selectByLicense
  /-- SELECT type FROM event WHERE license_status_fk = ? AND device_id = ?
  ORDER BY timestamp DESC LIMIT 1 -/
  | selectLastType
  /-- SELECT device_id, device_name, timestamp FROM event
  WHERE license_status_fk = ? AND type = 1 -/
  | selectRegistered
  /-- INSERT INTO event VALUES (?, ?, ?, ?, ?, ?) -/
  | insertEvent
  deriving DecidableEq

/-- An argument bound to a placeholder. -/
inductive Value
  | null
  | int (n : Int)
  | text (s : String)
  | time (t : Time)
  deriving DecidableEq

/-- A prepared statement (`*sql.Stmt` that is not nil). -/
structure Stmt where
  sql : Sql
  deriving DecidableEq

/-! ## The storage engine -/

/-- State of the storage engine behind `*sql.DB`. -/
structure DB where
  /-- Rows of table `event`, in the order a cursor yields them. -/
  rows : List Row
  /-- The id the engine gives to a row inserted with a NULL id. -/
  assignId : List Row → Int
  /-- The error, if any, that preparing a statement raises. -/
  prepareErr : Sql → Option Error
  /-- The error, if any, that running a statement raises. -/
  runErr : Sql → Option Error

/-- A value bound to the `id` placeholder: NULL asks the engine for an id. -/
def Value.asId (rows : List Row) (assignId : List Row → Int) : Value → Option Int
  | .null => some (assignId rows)
  | .int k => some k
  | _ => none

/-- A value bound to a nullable varchar placeholder. -/
def Value.asText : Value → Option (Option String)
  | .null => some none
  | .text s => some (some s)
  | _ => none

/-- The rows matched by `license_status_fk = ? AND device_id = ?`, most recent
timestamp first (rows with equal timestamps keep their cursor order). -/
def lastFirst (rows : List Row) (fk : Int) (dev : String) : List Row :=
  (rows.filter fun r => r.license_status_fk = fk ∧ r.device_id = some dev).insertionSort
    (fun a b => b.timestamp ≤ a.timestamp)

/-- Running one statement with its arguments: the new engine state and either
an error or the rows of the result (a result row is given by the table row it
comes from; the SELECT list says which of its columns `Scan` sees). -/
def DB.run (db : DB) (q : Sql) (args : List Value) : DB × Except Error (List Row) :=
  match db.runErr q with
  | some err => (db, .error err)
  | none =>
    match q, args with
    | .createTable, [] => (db, .ok [])
    | .selectById, [.int id] => (db, .ok ((db.rows.filter fun r => r.id = id).take 1))
    | .selectByLicense, [.int fk] => (db, .ok (db.rows.filter fun r => r.license_status_fk = fk))
    | .selectLastType, [.int fk, .text dev] => (db, .ok ((lastFirst db.rows fk dev).take 1))
    | .selectRegistered, [.int fk] =>
        (db, .ok (db.rows.filter fun r => r.license_status_fk = fk ∧ r.type = 1))
    | .insertEvent, [idv, namev, .time ts, .int ty, devv, .int fk] =>
        match idv.asId db.rows db.assignId, namev.asText, devv.asText with
        | some k, some name, some dev =>
            if db.rows.any (fun r => r.id = k) then (db, .error .Constraint)
            else ({ db with rows := db.rows ++ [⟨k, name, ts, ty, dev, fk⟩] }, .ok [])
        | _, _, _ => (db, .error .BadArgs)
    | _, _ => (db, .error .BadArgs)

/-- The call `db.Prepare(text)`. -/
def DB.Prepare (db : DB) (q : Sql) : Except Error Stmt :=
  match db.prepareErr q with
  | some err => .error err
  | none => .ok ⟨q⟩

/-- The call `stmt.Query(args...)`: the rows, or the error with a nil `*sql.Rows`. -/
def Stmt.Query (s : Stmt) (db : DB) (args : List Value) : DB × Except Error (List Row) :=
  db.run s.sql args

/-- The call `stmt.Exec(args...)`, of which only the error is used. -/
def Stmt.Exec (s : Stmt) (db : DB) (args : List Value) : DB × Option Error :=
  match db.run s.sql args with
  | (db1, .error err) => (db1, some err)
  | (db1, .ok _) => (db1, none)

/-- The call `db.Exec(text, args...)` on the connection itself. -/
def DB.Exec (db : DB) (q : Sql) (args : List Value) : DB × Option Error :=
  match db.run q args with
  | (db1, .error err) => (db1, some err)
  | (db1, .ok _) => (db1, none)

/-! ## The package -/

/-- The struct `dbTransactions`; a nil statement is `none`.  The field `db` is
the engine state that every method takes as an argument. -/
structure dbTransactions where
  get : Option Stmt
  add : Option Stmt
  getbylicensestatusid : Option Stmt
  checkdevicestatus : Option Stmt
  listregistereddevices : Option Stmt
  deriving DecidableEq

/-- The call `records.Scan(&e.Id, &e.DeviceName, &e.Timestamp, &typeInt, &e.DeviceId,
&e.LicenseStatusFk)` of `Get`, on a fresh `e` and `typeInt`: the destinations
are assigned from left to right and the first NULL met for a `*string` stops
the scan with an error. -/
def scanGet (r : Row) : Event × Int × Option Error :=
  let e := { Event.zero with Id := r.id }
  match r.device_name with
  | none => (e, 0, some (.ScanNull 1))
  | some name =>
    let e := { e with DeviceName := name, Timestamp := r.timestamp }
    match r.device_id with
    | none => (e, r.type, some (.ScanNull 4))
    | some dev => ({ e with DeviceId := dev, LicenseStatusFk := r.license_status_fk }, r.type, none)

/-- The call `rows.Scan(&e.Id, &e.DeviceName, &e.Timestamp, &e.Type, &e.DeviceId,
&e.LicenseStatusFk)` of `GetByLicenseStatusId`: the integer column `type` is
assigned to the string `e.Type` as its decimal text. -/
def scanEvent (r : Row) : Event × Option Error :=
  let e := { Event.zero with Id := r.id }
  match r.device_name with
  | none => (e, some (.ScanNull 1))
  | some name =>
    let e := { e with DeviceName := name, Timestamp := r.timestamp, Type_ := toString r.type }
    match r.device_id with
    | none => (e, some (.ScanNull 4))
    | some dev => ({ e with DeviceId := dev, LicenseStatusFk := r.license_status_fk }, none)

/-- The call `rows.Scan(&d.DeviceId, &d.DeviceName, &d.Timestamp)` of
`ListRegisteredDevices`, over the columns device_id, device_name, timestamp. -/
def scanDevice (r : Row) : Device × Option Error :=
  match r.device_id with
  | none => (Device.zero, some (.ScanNull 0))
  | some dev =>
    let d := { Device.zero with DeviceId := dev }
    match r.device_name with
    | none => (d, some (.ScanNull 1))
    | some name => ({ d with DeviceName := name, Timestamp := r.timestamp }, none)

/-- The method `Get`.  `Types` is `status.Types`: `Types n` is `none` where
indexing `status.Types[n]` faults (for a map, which has a value at every key,
it is `some` everywhere).  A nil statement, a failed `Query` (whose nil rows
are then dereferenced by `records.Next()`) and a faulting index give `none`. -/
def dbTransactions.Get (Types : Int → Option String) (i : dbTransactions) (db : DB) (id : Int) :
    DB × Option (Event × Option Error) :=
  match i.get with
  | none => (db, none)
  | some st =>
    match st.Query db [.int id] with
    | (db1, .error _) => (db1, none)
    | (db1, .ok []) => (db1, some (Event.zero, some .NotFound))
    | (db1, .ok (r :: _)) =>
      match scanGet r with
      | (e, _, some err) => (db1, some (e, some err))
      | (e, typeInt, none) =>
        match Types typeInt with
        | none => (db1, none)
        | some name => (db1, some ({ e with Type_ := name }, none))

/-- The method `Add`. -/
def dbTransactions.Add (_i : dbTransactions) (db : DB) (e : Event) (typeEvent : Int) :
    DB × Option Error :=
  match db.Prepare .insertEvent with
  | .error err => (db, some err)
  | .ok add =>
    add.Exec db [.null, .text e.DeviceName, .time e.Timestamp, .int typeEvent,
      .text e.DeviceId, .int e.LicenseStatusFk]

/-- The function value returned by `GetByLicenseStatusId`: either the closure
over the error of `Query`, or the closure over the open cursor. -/
inductive EventIter
  | failed (err : Error)
  | cursor (rows : List Row)
  deriving DecidableEq

/-- The function value returned by `ListRegisteredDevices`. -/
inductive DeviceIter
  | failed (err : Error)
  | cursor (rows : List Row)
  deriving DecidableEq

/-- One call of the function returned by `GetByLicenseStatusId`. -/
def EventIter.next : EventIter → (Event × Option Error) × EventIter
  | .failed err => ((Event.zero, some err), .failed err)
  | .cursor [] => ((Event.zero, some .NotFound), .cursor [])
  | .cursor (r :: rest) => (scanEvent r, .cursor rest)

/-- One call of the function returned by `ListRegisteredDevices`. -/
def DeviceIter.next : DeviceIter → (Device × Option Error) × DeviceIter
  | .failed err => ((Device.zero, some err), .failed err)
  | .cursor [] => ((Device.zero, some .NotFound), .cursor [])
  | .cursor (r :: rest) => (scanDevice r, .cursor rest)

/-- The results of the first `n` calls of an event sequence. -/
def EventIter.calls (it : EventIter) : Nat → List (Event × Option Error)
  | 0 => []
  | n + 1 => it.next.1 :: EventIter.calls it.next.2 n

/-- The results of the first `n` calls of a device sequence. -/
def DeviceIter.calls (it : DeviceIter) : Nat → List (Device × Option Error)
  | 0 => []
  | n + 1 => it.next.1 :: DeviceIter.calls it.next.2 n

/-- The method `GetByLicenseStatusId`. -/
def dbTransactions.GetByLicenseStatusId (i : dbTransactions) (db : DB) (licenseStatusFk : Int) :
    DB × Option EventIter :=
  match i.getbylicensestatusid with
  | none => (db, none)
  | some st =>
    match st.Query db [.int licenseStatusFk] with
    | (db1, .error err) => (db1, some (.failed err))
    | (db1, .ok rows) => (db1, some (.cursor rows))

/-- The method `ListRegisteredDevices`. -/
def dbTransactions.ListRegisteredDevices (i : dbTransactions) (db : DB) (licenseStatusFk : Int) :
    DB × Option DeviceIter :=
  match i.listregistereddevices with
  | none => (db, none)
  | some st =>
    match st.Query db [.int licenseStatusFk] with
    | (db1, .error err) => (db1, some (.failed err))
    | (db1, .ok rows) => (db1, some (.cursor rows))

/-- The call `row.Scan(&typeInt)` on the result of `QueryRow`: the error of the query,
`sql.ErrNoRows` when there is no row, else the column `type` of the first row.
`typeInt` keeps its zero value when nothing is assigned. -/
def scanType : Except Error (List Row) → Int × Option Error
  | .error err => (0, some err)
  | .ok [] => (0, some .ErrNoRows)
  | .ok (r :: _) => (r.type, none)

/-- The method `CheckDeviceStatus`.  `GetStatus code s` is the content of the
string variable after `status.GetStatus(code, &v)` when it held `s` before. -/
def dbTransactions.CheckDeviceStatus (GetStatus : Int → String → String) (i : dbTransactions)
    (db : DB) (licenseStatusFk : Int) (deviceId : String) : DB × Option (String × Option Error) :=
  match i.checkdevicestatus with
  | none => (db, none)
  | some st =>
    match st.Query db [.int licenseStatusFk, .text deviceId] with
    | (db1, res) =>
      match scanType res with
      | (typeInt, some err) => (db1, some (GetStatus typeInt "", some err))
      | (_, none) => (db1, some ("", none))

/-- The function `Open`: the new engine state, the store (nil is `none`) and
the error. -/
def Open (db : DB) : DB × Option dbTransactions × Option Error :=
  match db.Exec .createTable [] with
  | (db1, some err) => (db1, none, some err)
  | (db1, none) =>
    match db1.Prepare .selectById with
    | .error err => (db1, none, some err)
    | .ok get =>
      let getbylicensestatusid := (db1.Prepare .selectByLicense).toOption
      let checkdevicestatus := (db1.Prepare .selectLastType).toOption
      match db1.Prepare .selectRegistered with
      | .error err => (db1, none, some err)
      | .ok listregistereddevices =>
        (db1, some ⟨some get, none, getbylicensestatusid, checkdevicestatus,
          some listregistereddevices⟩, none)

/-- The engine state after a series of `Add` calls, `none` as soon as one of
them returns an error. -/
def addAll (i : dbTransactions) (db : DB) : List (Event × Int) → Option DB
  | [] => some db
  | (e, c) :: rest =>
    match i.Add db e c with
    | (db1, none) => addAll i db1 rest
    | (_, some _) => none

/-- The row that `Add(e, typeEvent)` hands to the engine, with the id `k` that
the engine assigns. -/
def rowOf (k : Int) (e : Event) (typeEvent : Int) : Row :=
  ⟨k, some e.DeviceName, e.Timestamp, typeEvent, some e.DeviceId, e.LicenseStatusFk⟩

/-- The ids the engine assigns, one after the other, to the rows of a series
of `Add` calls that all succeed: each call gets `assignId` of the table it
finds and leaves that table with its row at the end. -/
def assignedIds (db : DB) : List (Event × Int) → List Int
  | [] => []
  | (e, c) :: rest =>
    db.assignId db.rows ::
      assignedIds { db with rows := db.rows ++ [rowOf (db.assignId db.rows) e c] } rest

/-! ## Concrete engines and events used in the scenarios -/

/-- An engine with an empty table and no fault that numbers the rows the way
SQLite does for an integer primary key: one more than the largest id. -/
def emptyDB : DB :=
  ⟨[], fun rows => (rows.map Row.id).foldl max 0 + 1, fun _ => none, fun _ => none⟩

/-- The engine `emptyDB`, except that preparing the statement of
`getbylicensestatusid` fails. -/
def faultyDB : DB :=
  { emptyDB with prepareErr := fun q => if q = .selectByLicense then some (.Storage 1) else none }

/-- The engine `emptyDB`, except that running any statement fails. -/
def downDB : DB :=
  { emptyDB with runErr := fun _ => some (.Storage 2) }

/-- The store that `Open` returns when every statement is prepared. -/
def openedStore : dbTransactions :=
  ⟨some ⟨.selectById⟩, none, some ⟨.selectByLicense⟩, some ⟨.selectLastType⟩,
    some ⟨.selectRegistered⟩⟩

/-- A sample of `status.Types`, to instantiate the parameter in scenarios:
the names of the type codes 1 to 4, no other index. -/
def sampleTypes : Int → Option String := fun n =>
  if n = 1 then some "register" else if n = 2 then some "renew"
  else if n = 3 then some "return" else if n = 4 then some "revoke" else none

/-- A sample of `status.GetStatus`, to instantiate the parameter in scenarios:
the codes 0 to 2 have a status name, any other code leaves the string as it is. -/
def sampleGetStatus : Int → String → String := fun n s =>
  if n = 0 then "ready" else if n = 1 then "active" else if n = 2 then "revoked" else s

/-- The event of the scenario: device "dev-1" named "Kindle" on license 7. -/
def kindle (t : Time) : Event := ⟨0, "Kindle", t, "", "dev-1", 7⟩

/-- An event of another license: device "dev-2" named "Kobo" on license 8,
with a caller-side Id and Type that `Add` does not store. -/
def kobo (t : Time) : Event := ⟨55, "Kobo", t, "renew", "dev-2", 8⟩

/-! ## The engine and `Add` -/

/-- What a successful `Add` tells: the id the engine assigns is not in use and
the new state is the old one with one row more at the end. -/
theorem Add_ok (i : dbTransactions) (db db1 : DB) (e : Event) (c : Int)
    (h : i.Add db e c = (db1, none)) :
    (∀ r ∈ db.rows, r.id ≠ db.assignId db.rows) ∧
      db1 = { db with rows := db.rows ++ [rowOf (db.assignId db.rows) e c] } := by
  unfold dbTransactions.Add DB.Prepare Stmt.Exec DB.run at h
  cases hp : db.prepareErr Sql.insertEvent with
  | some err => simp [hp] at h
  | none =>
    cases hr : db.runErr Sql.insertEvent with
    | some err => simp [hp, hr] at h
    | none =>
      simp only [hp, hr, Value.asId, Value.asText] at h
      by_cases hk : db.rows.any (fun r => decide (r.id = db.assignId db.rows)) = true
      · simp [hk] at h
      · simp only [hk] at h
        simp only [Bool.false_eq_true, if_false, Prod.mk.injEq, and_true] at h
        refine ⟨?_, h.symm⟩
        intro r hr1 hr2
        exact hk (List.any_eq_true.mpr ⟨r, hr1, by simp [hr2]⟩)

/-- A statement run with at most two arguments leaves the engine state as it
is: only the insertion, which takes six, changes it. -/
theorem run_frame (db : DB) (q : Sql) (args : List Value) (h : args.length ≤ 2) :
    (db.run q args).1 = db := by
  unfold DB.run
  split
  · rfl
  · split <;> first | rfl | (simp at h)

/-- The query of `Get` on an engine that serves it. -/
theorem query_selectById (db : DB) (id : Int) (hrun : db.runErr .selectById = none) :
    (Stmt.mk .selectById).Query db [.int id] =
      (db, .ok ((db.rows.filter fun r => r.id = id).take 1)) := by
  simp [Stmt.Query, DB.run, hrun]

/-! ## `Get` -/

/-- The result of `Get` when no row has the id. -/
theorem Get_absent (Types : Int → Option String) (i : dbTransactions) (db : DB) (id : Int)
    (hget : i.get = some ⟨.selectById⟩) (hrun : db.runErr .selectById = none)
    (h : ∀ r ∈ db.rows, r.id ≠ id) :
    i.Get Types db id = (db, some (Event.zero, some .NotFound)) := by
  have hf : (db.rows.filter fun r => r.id = id) = [] := by
    rw [List.filter_eq_nil_iff]
    intro r hr
    simpa using h r hr
  simp [dbTransactions.Get, hget, query_selectById db id hrun, hf]

/-- The result of `Get` when the rows with the id start with `r`. -/
theorem Get_present (Types : Int → Option String) (i : dbTransactions) (db : DB) (id : Int)
    (r : Row) (rest : List Row)
    (hget : i.get = some ⟨.selectById⟩) (hrun : db.runErr .selectById = none)
    (h : (db.rows.filter fun r => r.id = id) = r :: rest) :
    i.Get Types db id =
      match scanGet r with
      | (e, _, some err) => (db, some (e, some err))
      | (e, typeInt, none) =>
        match Types typeInt with
        | none => (db, none)
        | some name => (db, some ({ e with Type_ := name }, none)) := by
  simp [dbTransactions.Get, hget, query_selectById db id hrun, h]

/-- Claim C1.  Round trip of `Add` then `Get`: when `Add(e, c)` succeeds on an
engine that assigns the new row the id `k`, and `c` is an index of
`status.Types` with name `name`, then `Get(k)` on the new state (served by the
engine, through the statement that `Open` prepared) returns a nil error and
the event with id `k`, the DeviceName, Timestamp, DeviceId and LicenseStatusFk
of `e`, and the type `name`, whatever `e.Type` and `e.Id` were. -/
theorem add_then_get_roundtrip (Types : Int → Option String) (i : dbTransactions)
    (db db1 : DB) (e : Event) (c k : Int) (name : String)
    (hget : i.get = some ⟨.selectById⟩) (hrun : db.runErr .selectById = none)
    (hc : Types c = some name) (hadd : i.Add db e c = (db1, none))
    (hk : db.assignId db.rows = k) :
    i.Get Types db1 k =
      (db1, some (⟨k, e.DeviceName, e.Timestamp, name, e.DeviceId, e.LicenseStatusFk⟩, none)) := by
  obtain ⟨hfresh, hdb1⟩ := Add_ok i db db1 e c hadd
  rw [hk] at hfresh hdb1
  have hrun1 : db1.runErr .selectById = none := by rw [hdb1]; exact hrun
  have hf : (db1.rows.filter fun r => r.id = k) = [rowOf k e c] := by
    have h0 : (db.rows.filter fun r => r.id = k) = [] := by
      rw [List.filter_eq_nil_iff]
      intro r hr
      simpa using hfresh r hr
    rw [hdb1]
    simp [List.filter_append, h0, rowOf]
  rw [Get_present Types i db1 k (rowOf k e c) [] hget hrun1 hf]
  simp [scanGet, rowOf, hc, Event.zero]

/-- Witness of C1: the scenario event added with type code 1 to the empty
table gets id 1 and is read back with the type name of code 1. -/
theorem add_then_get_roundtrip_witness :
    openedStore.Add emptyDB (kindle 100) 1 =
        ({ emptyDB with rows := [rowOf 1 (kindle 100) 1] }, none) ∧
      openedStore.Get sampleTypes { emptyDB with rows := [rowOf 1 (kindle 100) 1] } 1 =
        ({ emptyDB with rows := [rowOf 1 (kindle 100) 1] },
          some (⟨1, "Kindle", 100, "register", "dev-1", 7⟩, none)) :=
  ⟨rfl, add_then_get_roundtrip sampleTypes openedStore emptyDB _ (kindle 100) 1 1 "register"
    rfl rfl rfl rfl rfl⟩

/-- Claim C2.  On an engine that serves the query of `Get`: when no row has
the id, `Get(id)` returns the zero Event with the error NotFound (so never a
nil error with an empty Event); and when some row has the id, whatever `Get`
returns is not NotFound. -/
theorem get_not_found_iff_absent (Types : Int → Option String) (i : dbTransactions) (db : DB)
    (id : Int) (hget : i.get = some ⟨.selectById⟩) (hrun : db.runErr .selectById = none) :
    ((∀ r ∈ db.rows, r.id ≠ id) →
        i.Get Types db id = (db, some (Event.zero, some .NotFound))) ∧
      ((∃ r ∈ db.rows, r.id = id) →
        ∀ e, (i.Get Types db id).2 ≠ some (e, some .NotFound)) := by
  refine ⟨Get_absent Types i db id hget hrun, ?_⟩
  rintro ⟨r, hr, hid⟩ e
  have hmem : r ∈ db.rows.filter fun r => r.id = id := by
    simp [List.mem_filter, hr, hid]
  cases hf : (db.rows.filter fun r => r.id = id) with
  | nil => rw [hf] at hmem; cases hmem
  | cons r0 rest =>
    rw [Get_present Types i db id r0 rest hget hrun hf]
    unfold scanGet
    cases r0.device_name with
    | none => simp
    | some n =>
      cases r0.device_id with
      | none => simp
      | some d =>
        cases hT : Types r0.type <;> simp [hT]

/-- Witness of C2: on the table that holds the scenario event with id 1,
`Get(2)` is NotFound and `Get(1)` is not. -/
theorem get_not_found_iff_absent_witness :
    openedStore.Get sampleTypes { emptyDB with rows := [rowOf 1 (kindle 100) 1] } 2 =
        ({ emptyDB with rows := [rowOf 1 (kindle 100) 1] }, some (Event.zero, some .NotFound)) ∧
      ∀ e, (openedStore.Get sampleTypes { emptyDB with rows := [rowOf 1 (kindle 100) 1] } 1).2 ≠
        some (e, some .NotFound) :=
  ⟨(get_not_found_iff_absent sampleTypes openedStore
      { emptyDB with rows := [rowOf 1 (kindle 100) 1] } 2 rfl rfl).1 (by decide),
    (get_not_found_iff_absent sampleTypes openedStore
      { emptyDB with rows := [rowOf 1 (kindle 100) 1] } 1 rfl rfl).2 (by decide)⟩

/-! ## Frame of the read operations -/

/-- A query with at most two arguments returns the engine state it was given. -/
theorem Query_frame (st : Stmt) (db : DB) (args : List Value) (h : args.length ≤ 2) :
    ∃ res, st.Query db args = (db, res) :=
  ⟨(st.Query db args).2, Prod.ext (run_frame db st.sql args h) rfl⟩

/-- The method `Get` returns the engine state it was given. -/
theorem Get_frame (Types : Int → Option String) (i : dbTransactions) (db : DB) (id : Int) :
    (i.Get Types db id).1 = db := by
  unfold dbTransactions.Get
  cases i.get with
  | none => rfl
  | some st =>
    obtain ⟨res, hres⟩ := Query_frame st db [.int id] (by simp)
    simp only [hres]
    rcases res with err | rows
    · rfl
    · rcases rows with _ | ⟨r, rest⟩
      · rfl
      · simp only
        split
        · rfl
        · split <;> rfl

/-- The method `GetByLicenseStatusId` returns the engine state it was given. -/
theorem GetByLicenseStatusId_frame (i : dbTransactions) (db : DB) (L : Int) :
    (i.GetByLicenseStatusId db L).1 = db := by
  unfold dbTransactions.GetByLicenseStatusId
  cases i.getbylicensestatusid with
  | none => rfl
  | some st =>
    obtain ⟨res, hres⟩ := Query_frame st db [.int L] (by simp)
    simp only [hres]
    rcases res with err | rows <;> rfl

/-- The method `ListRegisteredDevices` returns the engine state it was given. -/
theorem ListRegisteredDevices_frame (i : dbTransactions) (db : DB) (L : Int) :
    (i.ListRegisteredDevices db L).1 = db := by
  unfold dbTransactions.ListRegisteredDevices
  cases i.listregistereddevices with
  | none => rfl
  | some st =>
    obtain ⟨res, hres⟩ := Query_frame st db [.int L] (by simp)
    simp only [hres]
    rcases res with err | rows <;> rfl

/-- The method `CheckDeviceStatus` returns the engine state it was given. -/
theorem CheckDeviceStatus_frame (GetStatus : Int → String → String) (i : dbTransactions)
    (db : DB) (L : Int) (D : String) :
    (i.CheckDeviceStatus GetStatus db L D).1 = db := by
  unfold dbTransactions.CheckDeviceStatus
  cases i.checkdevicestatus with
  | none => rfl
  | some st =>
    obtain ⟨res, hres⟩ := Query_frame st db [.int L, .text D] (by simp)
    simp only [hres]
    split <;> rfl

/-- Claim C9.  A successful `Add(e, c)` keeps the rows that were stored and
adds one row after them, with the columns (id assigned by the engine,
e.DeviceName, e.Timestamp, c, e.DeviceId, e.LicenseStatusFk); `Add` does the
same for two events that differ only in Type and Id; and the four read
operations return the engine state they were given, for every store. -/
theorem add_appends_one_row_reads_keep_table (Types : Int → Option String)
    (GetStatus : Int → String → String) (i : dbTransactions) (db db1 : DB) (e : Event)
    (c : Int) (hadd : i.Add db e c = (db1, none)) :
    db1.rows = db.rows ++ [⟨db.assignId db.rows, some e.DeviceName, e.Timestamp, c,
        some e.DeviceId, e.LicenseStatusFk⟩] ∧
      (∀ (id : Int) (ty : String), i.Add db { e with Id := id, Type_ := ty } c = i.Add db e c) ∧
      (∀ (j : dbTransactions) (s : DB) (id L : Int) (D : String),
        (j.Get Types s id).1 = s ∧ (j.GetByLicenseStatusId s L).1 = s ∧
        (j.CheckDeviceStatus GetStatus s L D).1 = s ∧ (j.ListRegisteredDevices s L).1 = s) := by
  refine ⟨?_, fun _ _ => rfl, fun j s id L D =>
    ⟨Get_frame Types j s id, GetByLicenseStatusId_frame j s L,
      CheckDeviceStatus_frame GetStatus j s L D, ListRegisteredDevices_frame j s L⟩⟩
  rw [(Add_ok i db db1 e c hadd).2]
  rfl

/-- Witness of C9: adding the "Kobo" event, whose Id is 55 and Type "renew",
with type code 1 to the table that holds the scenario event under id 1: the
old row stays and the row (2, "Kobo", 150, 1, "dev-2", 8) comes after it. -/
theorem add_appends_one_row_reads_keep_table_witness :
    openedStore.Add { emptyDB with rows := [rowOf 1 (kindle 100) 1] } (kobo 150) 1 =
        ({ emptyDB with rows := [rowOf 1 (kindle 100) 1, rowOf 2 (kobo 150) 1] }, none) ∧
      ({ emptyDB with rows := [rowOf 1 (kindle 100) 1, rowOf 2 (kobo 150) 1] } : DB).rows =
        [⟨1, some "Kindle", 100, 1, some "dev-1", 7⟩] ++
          [⟨2, some "Kobo", 150, 1, some "dev-2", 8⟩] :=
  ⟨rfl, (add_appends_one_row_reads_keep_table sampleTypes sampleGetStatus openedStore
    { emptyDB with rows := [rowOf 1 (kindle 100) 1] }
    { emptyDB with rows := [rowOf 1 (kindle 100) 1, rowOf 2 (kobo 150) 1] } (kobo 150) 1 rfl).1⟩

/-! ## The sequences -/

/-- Every call of the closure over a query error returns that error. -/
theorem event_calls_failed (err : Error) (n : Nat) :
    (EventIter.failed err).calls n = List.replicate n (Event.zero, some err) := by
  induction n with
  | zero => rfl
  | succ n ih => simp [EventIter.calls, EventIter.next, ih, List.replicate_succ]

/-- Every call of the closure over a query error returns that error. -/
theorem device_calls_failed (err : Error) (n : Nat) :
    (DeviceIter.failed err).calls n = List.replicate n (Device.zero, some err) := by
  induction n with
  | zero => rfl
  | succ n ih => simp [DeviceIter.calls, DeviceIter.next, ih, List.replicate_succ]

/-- A cursor yields the scan of each of its rows, then NotFound for ever. -/
theorem event_calls_cursor (rows : List Row) (m : Nat) :
    (EventIter.cursor rows).calls (rows.length + m) =
      rows.map scanEvent ++ List.replicate m (Event.zero, some .NotFound) := by
  induction rows with
  | nil =>
    induction m with
    | zero => rfl
    | succ m ih =>
      simp only [List.length_nil, Nat.zero_add, List.map_nil, List.nil_append] at ih ⊢
      simp [EventIter.calls, EventIter.next, ih, List.replicate_succ]
  | cons r rest ih =>
    have hlen : (r :: rest).length + m = (rest.length + m) + 1 := by simp; omega
    rw [hlen]
    simp [EventIter.calls, EventIter.next, ih]

/-- A cursor yields the scan of each of its rows, then NotFound for ever. -/
theorem device_calls_cursor (rows : List Row) (m : Nat) :
    (DeviceIter.cursor rows).calls (rows.length + m) =
      rows.map scanDevice ++ List.replicate m (Device.zero, some .NotFound) := by
  induction rows with
  | nil =>
    induction m with
    | zero => rfl
    | succ m ih =>
      simp only [List.length_nil, Nat.zero_add, List.map_nil, List.nil_append] at ih ⊢
      simp [DeviceIter.calls, DeviceIter.next, ih, List.replicate_succ]
  | cons r rest ih =>
    have hlen : (r :: rest).length + m = (rest.length + m) + 1 := by simp; omega
    rw [hlen]
    simp [DeviceIter.calls, DeviceIter.next, ih]

/-- Claim C8.  For `GetByLicenseStatusId` and for `ListRegisteredDevices`: when
the query of the prepared statement fails with error `E`, the method returns
a function of which the first `n` calls, for every `n`, all return the zero
value together with `E`: no row and no NotFound. -/
theorem failed_query_gives_failing_sequence (i : dbTransactions) (db : DB) (L : Int)
    (E : Error) :
    (∀ st, i.getbylicensestatusid = some st → (st.Query db [.int L]).2 = .error E →
        ∃ it, (i.GetByLicenseStatusId db L).2 = some it ∧
          ∀ n, it.calls n = List.replicate n (Event.zero, some E)) ∧
      (∀ st, i.listregistereddevices = some st → (st.Query db [.int L]).2 = .error E →
        ∃ it, (i.ListRegisteredDevices db L).2 = some it ∧
          ∀ n, it.calls n = List.replicate n (Device.zero, some E)) := by
  constructor
  · intro st hst hq
    refine ⟨.failed E, ?_, event_calls_failed E⟩
    rcases hres : st.Query db [.int L] with ⟨d, res⟩
    rw [hres] at hq
    simp only at hq
    subst hq
    simp [dbTransactions.GetByLicenseStatusId, hst, hres]
  · intro st hst hq
    refine ⟨.failed E, ?_, device_calls_failed E⟩
    rcases hres : st.Query db [.int L] with ⟨d, res⟩
    rw [hres] at hq
    simp only at hq
    subst hq
    simp [dbTransactions.ListRegisteredDevices, hst, hres]

/-- Witness of C8: on the engine that fails every statement with
`Storage 2`, both sequences of license 7 return that error at every call. -/
theorem failed_query_gives_failing_sequence_witness :
    (⟨Sql.selectByLicense⟩ : Stmt).Query downDB [.int 7] = (downDB, .error (.Storage 2)) ∧
      (∃ it, (openedStore.GetByLicenseStatusId downDB 7).2 = some it ∧
        ∀ n, it.calls n = List.replicate n (Event.zero, some (.Storage 2))) ∧
      (∃ it, (openedStore.ListRegisteredDevices downDB 7).2 = some it ∧
        ∀ n, it.calls n = List.replicate n (Device.zero, some (.Storage 2))) :=
  ⟨rfl,
    (failed_query_gives_failing_sequence openedStore downDB 7 (.Storage 2)).1
      ⟨.selectByLicense⟩ rfl rfl,
    (failed_query_gives_failing_sequence openedStore downDB 7 (.Storage 2)).2
      ⟨.selectRegistered⟩ rfl rfl⟩

/-! ## Stores built by `Add` -/

/-- The table after a series of successful `Add` calls: the rows that were
there, then one row per call, in the order of the calls, each with the id the
engine gave it; the rest of the engine state is as before. -/
theorem addAll_rows (i : dbTransactions) (calls : List (Event × Int)) :
    ∀ db db1 : DB, addAll i db calls = some db1 →
      ∃ ids : List Int, ids.length = calls.length ∧
        db1 = { db with rows := db.rows ++
          (ids.zip calls).map fun p => rowOf p.1 p.2.1 p.2.2 } := by
  induction calls with
  | nil =>
    intro db db1 h
    simp only [addAll, Option.some.injEq] at h
    subst h
    exact ⟨[], rfl, by simp⟩
  | cons ec rest ih =>
    intro db db1 h
    obtain ⟨e, c⟩ := ec
    rcases hadd : i.Add db e c with ⟨db2, err⟩
    cases err with
    | some err => simp [addAll, hadd] at h
    | none =>
      simp only [addAll, hadd] at h
      obtain ⟨ids, hlen, hdb1⟩ := ih db2 db1 h
      obtain ⟨-, hdb2⟩ := Add_ok i db db2 e c hadd
      refine ⟨db.assignId db.rows :: ids, by simp [hlen], ?_⟩
      rw [hdb1, hdb2]
      simp

/-- The ids of the rows after a series of successful `Add` calls: the table
is the old one followed by one row per call carrying the id the engine
assigned to that call; these ids are pairwise distinct and none of them is the
id of a row that was there before. -/
theorem addAll_assigned (i : dbTransactions) (calls : List (Event × Int)) :
    ∀ db db1 : DB, addAll i db calls = some db1 →
      (assignedIds db calls).length = calls.length ∧
        db1 = { db with rows := db.rows ++
          ((assignedIds db calls).zip calls).map fun p => rowOf p.1 p.2.1 p.2.2 } ∧
        (assignedIds db calls).Nodup ∧
        ∀ r ∈ db.rows, r.id ∉ assignedIds db calls := by
  induction calls with
  | nil =>
    intro db db1 h
    simp only [addAll, Option.some.injEq] at h
    subst h
    exact ⟨rfl, by simp [assignedIds], by simp [assignedIds], by simp [assignedIds]⟩
  | cons ec rest ih =>
    intro db db1 h
    obtain ⟨e, c⟩ := ec
    rcases hadd : i.Add db e c with ⟨db2, err⟩
    cases err with
    | some err => simp [addAll, hadd] at h
    | none =>
      simp only [addAll, hadd] at h
      obtain ⟨hfresh, hdb2⟩ := Add_ok i db db2 e c hadd
      obtain ⟨hlen, hdb1, hnodup, hold⟩ := ih db2 db1 h
      have hids : assignedIds db ((e, c) :: rest) =
          db.assignId db.rows :: assignedIds db2 rest := by
        rw [hdb2]; rfl
      have hrows2 : db2.rows = db.rows ++ [rowOf (db.assignId db.rows) e c] := by
        rw [hdb2]
      have hk : db.assignId db.rows ∉ assignedIds db2 rest := by
        have := hold (rowOf (db.assignId db.rows) e c) (by rw [hrows2]; simp)
        simpa [rowOf] using this
      refine ⟨by rw [hids]; simp [hlen], ?_, ?_, ?_⟩
      · rw [hids, hdb1, hdb2]
        simp
      · rw [hids]
        exact List.nodup_cons.mpr ⟨hk, hnodup⟩
      · intro r hr
        rw [hids]
        simp only [List.mem_cons, not_or]
        exact ⟨hfresh r hr, hold r (by rw [hrows2]; simp [hr])⟩

/-- Selecting and projecting on the call of each (id, call) pair is selecting
and projecting on the calls. -/
theorem filter_zip_snd {α β γ : Type} (ids : List α) (calls : List β) (p : β → Bool)
    (g : β → γ) (h : ids.length = calls.length) :
    ((ids.zip calls).filter fun z => p z.2).map (fun z => g z.2) = (calls.filter p).map g := by
  have hs : (ids.zip calls).map Prod.snd = calls := List.map_snd_zip ids calls (by omega)
  conv_rhs => rw [← hs]
  rw [List.filter_map, List.map_map]
  rfl

/-- The scan of `GetByLicenseStatusId` on a row written by `Add`. -/
theorem scanEvent_rowOf (k : Int) (e : Event) (c : Int) :
    scanEvent (rowOf k e c) =
      (⟨k, e.DeviceName, e.Timestamp, toString c, e.DeviceId, e.LicenseStatusFk⟩, none) := by
  simp [scanEvent, rowOf, Event.zero]

/-- The scan of `ListRegisteredDevices` on a row written by `Add`. -/
theorem scanDevice_rowOf (k : Int) (e : Event) (c : Int) :
    scanDevice (rowOf k e c) = (⟨e.DeviceId, e.DeviceName, e.Timestamp⟩, none) := by
  simp [scanDevice, rowOf, Device.zero]

/-- Claim C3, as amended.  On a table built from the empty one by successful
`Add` calls, of which N carry LicenseStatusFk = L, the function returned by
`GetByLicenseStatusId(L)` (query served by the engine) yields N events with a
nil error and then the zero Event with NotFound at every later call; every
yielded event has LicenseStatusFk = L; the yielded events agree one for one
with the events added for L on DeviceName, Timestamp, DeviceId and
LicenseStatusFk; and the Id of each yielded event is the id that the engine
assigned to the row of that `Add` call: the table holds one row per call under
these pairwise distinct ids, and the yielded (Id, DeviceName, Timestamp,
DeviceId, LicenseStatusFk) are, one for one, the assigned id and the fields
of the calls for L. -/
theorem license_events_of_added (i : dbTransactions) (db0 db : DB)
    (calls : List (Event × Int)) (L : Int)
    (h0 : db0.rows = []) (hst : i.getbylicensestatusid = some ⟨.selectByLicense⟩)
    (hrun : db.runErr .selectByLicense = none) (hadd : addAll i db0 calls = some db) :
    ∃ (it : EventIter) (evs : List Event),
      (i.GetByLicenseStatusId db L).2 = some it ∧
      evs.length = (calls.filter fun p => p.1.LicenseStatusFk = L).length ∧
      (∀ m, it.calls (evs.length + m) =
        evs.map (fun ev => (ev, none)) ++ List.replicate m (Event.zero, some .NotFound)) ∧
      (∀ ev ∈ evs, ev.LicenseStatusFk = L) ∧
      List.Perm
        (evs.map fun ev => (ev.DeviceName, ev.Timestamp, ev.DeviceId, ev.LicenseStatusFk))
        ((calls.filter fun p => p.1.LicenseStatusFk = L).map fun p =>
          (p.1.DeviceName, p.1.Timestamp, p.1.DeviceId, p.1.LicenseStatusFk)) ∧
      (assignedIds db0 calls).Nodup ∧
      db.rows = ((assignedIds db0 calls).zip calls).map (fun z => rowOf z.1 z.2.1 z.2.2) ∧
      List.Perm
        (evs.map fun ev =>
          (ev.Id, ev.DeviceName, ev.Timestamp, ev.DeviceId, ev.LicenseStatusFk))
        ((((assignedIds db0 calls).zip calls).filter fun z => z.2.1.LicenseStatusFk = L).map
          fun z => (z.1, z.2.1.DeviceName, z.2.1.Timestamp, z.2.1.DeviceId,
            z.2.1.LicenseStatusFk)) := by
  obtain ⟨hlen, hdb, hnodup, -⟩ := addAll_assigned i calls db0 db hadd
  have hrows : db.rows =
      ((assignedIds db0 calls).zip calls).map fun p => rowOf p.1 p.2.1 p.2.2 := by
    rw [hdb]; simp [h0]
  let Z := ((assignedIds db0 calls).zip calls).filter
    fun z => decide (z.2.1.LicenseStatusFk = L)
  have hR : (db.rows.filter fun r => r.license_status_fk = L) =
      Z.map fun p => rowOf p.1 p.2.1 p.2.2 := by
    rw [hrows, List.filter_map]
    rfl
  have hproj := filter_zip_snd (assignedIds db0 calls) calls
    (fun p => decide (p.1.LicenseStatusFk = L))
    (fun p => (p.1.DeviceName, p.1.Timestamp, p.1.DeviceId, p.1.LicenseStatusFk)) hlen
  have hcount := congrArg List.length hproj
  simp only [List.length_map] at hcount
  refine ⟨.cursor (Z.map fun p => rowOf p.1 p.2.1 p.2.2),
    Z.map (fun z => ⟨z.1, z.2.1.DeviceName, z.2.1.Timestamp, toString z.2.2, z.2.1.DeviceId,
      z.2.1.LicenseStatusFk⟩), ?_, ?_, ?_, ?_, ?_, hnodup, hrows, ?_⟩
  · simp [dbTransactions.GetByLicenseStatusId, hst, Stmt.Query, DB.run, hrun, hR]
  · simpa using hcount
  · intro m
    have hc := event_calls_cursor (Z.map fun p => rowOf p.1 p.2.1 p.2.2) m
    simp only [List.length_map, List.map_map] at hc ⊢
    rw [hc]
    rfl
  · intro ev hev
    simp only [List.mem_map] at hev
    obtain ⟨z, hz, rfl⟩ := hev
    have := (List.mem_filter.mp hz).2
    simpa using this
  · rw [List.map_map]
    exact List.Perm.of_eq hproj
  · rw [List.map_map]
    exact List.Perm.of_eq rfl

/-- Witness of C3 as amended: "dev-1" registers on license 7, "dev-2" on
license 8, then "dev-1" returns on license 7.  The rows get the ids 1, 2, 3
and the sequence of license 7 yields two events, with the ids 1 and 3. -/
theorem license_events_of_added_witness :
    addAll openedStore emptyDB [(kindle 100, 1), (kobo 150, 1), (kindle 200, 3)] =
        some { emptyDB with rows :=
          [rowOf 1 (kindle 100) 1, rowOf 2 (kobo 150) 1, rowOf 3 (kindle 200) 3] } ∧
      assignedIds emptyDB [(kindle 100, 1), (kobo 150, 1), (kindle 200, 3)] = [1, 2, 3] ∧
      ∃ (it : EventIter) (evs : List Event),
        (openedStore.GetByLicenseStatusId { emptyDB with rows :=
          [rowOf 1 (kindle 100) 1, rowOf 2 (kobo 150) 1, rowOf 3 (kindle 200) 3] } 7).2 =
            some it ∧
        evs.length = 2 ∧
        (∀ m, it.calls (evs.length + m) =
          evs.map (fun ev => (ev, none)) ++ List.replicate m (Event.zero, some .NotFound)) ∧
        (∀ ev ∈ evs, ev.LicenseStatusFk = 7) ∧
        List.Perm
          (evs.map fun ev => (ev.DeviceName, ev.Timestamp, ev.DeviceId, ev.LicenseStatusFk))
          [("Kindle", 100, "dev-1", 7), ("Kindle", 200, "dev-1", 7)] ∧
        List.Nodup [(1 : Int), 2, 3] ∧
        [rowOf 1 (kindle 100) 1, rowOf 2 (kobo 150) 1, rowOf 3 (kindle 200) 3] =
          ([(1 : Int), 2, 3].zip [(kindle 100, (1 : Int)), (kobo 150, 1), (kindle 200, 3)]).map
            (fun z => rowOf z.1 z.2.1 z.2.2) ∧
        List.Perm
          (evs.map fun ev =>
            (ev.Id, ev.DeviceName, ev.Timestamp, ev.DeviceId, ev.LicenseStatusFk))
          [(1, "Kindle", 100, "dev-1", 7), (3, "Kindle", 200, "dev-1", 7)] :=
  ⟨rfl, rfl, license_events_of_added openedStore emptyDB
    { emptyDB with rows :=
      [rowOf 1 (kindle 100) 1, rowOf 2 (kobo 150) 1, rowOf 3 (kindle 200) 3] }
    [(kindle 100, 1), (kobo 150, 1), (kindle 200, 3)] 7 rfl rfl rfl rfl⟩

/-- The slip that C3 meets, stated on its own: for a row that `Add` wrote with
type code `c`, the scan of `Get` gives the type `status.Types[c]`, while the
scan of `GetByLicenseStatusId` puts the decimal text of `c` in `Type`. -/
theorem license_event_type_is_code_text (k : Int) (e : Event) (c : Int) :
    (scanEvent (rowOf k e c)).1.Type_ = toString c ∧
      (scanGet (rowOf k e c)).2.1 = c ∧
      (openedStore.Get sampleTypes { emptyDB with rows := [rowOf 1 (kindle 100) 1] } 1).2 =
        some (⟨1, "Kindle", 100, "register", "dev-1", 7⟩, none) ∧
      (EventIter.cursor [rowOf 1 (kindle 100) 1]).next.1 =
        (⟨1, "Kindle", 100, "1", "dev-1", 7⟩, none) := by
  refine ⟨by simp [scanEvent_rowOf], by simp [scanGet, rowOf], rfl, by decide⟩

/-- Counterexample to C3 as stated: the event with Id 0 and Type "register"
is added with type code 1 to the empty table; the sequence of license 7 then
yields one event, with Id 1 and Type "1", which is not equal by value to the
event that was added. -/
theorem license_event_differs_from_added :
    addAll openedStore emptyDB [(⟨0, "Kindle", 100, "register", "dev-1", 7⟩, 1)] =
        some { emptyDB with rows := [⟨1, some "Kindle", 100, 1, some "dev-1", 7⟩] } ∧
      (openedStore.GetByLicenseStatusId
          { emptyDB with rows := [⟨1, some "Kindle", 100, 1, some "dev-1", 7⟩] } 7).2 =
        some (.cursor [⟨1, some "Kindle", 100, 1, some "dev-1", 7⟩]) ∧
      (EventIter.cursor [⟨1, some "Kindle", 100, 1, some "dev-1", 7⟩]).calls 2 =
        [(⟨1, "Kindle", 100, "1", "dev-1", 7⟩, none), (Event.zero, some .NotFound)] ∧
      (⟨1, "Kindle", 100, "1", "dev-1", 7⟩ : Event) ≠ ⟨0, "Kindle", 100, "register", "dev-1", 7⟩ :=
  ⟨rfl, rfl, by decide, by decide⟩

/-- Claim C4.  On a table built from the empty one by successful `Add` calls,
of which K have type code 1 and LicenseStatusFk = L, the function returned by
`ListRegisteredDevices(L)` (query served by the engine) yields K devices with
a nil error and then the zero Device with NotFound at every later call; the
devices are, one for one, the (DeviceId, DeviceName, Timestamp) of those K
events: one per registration event, with no de-duplication and whatever other
events were added. -/
theorem registered_devices_of_added (i : dbTransactions) (db0 db : DB)
    (calls : List (Event × Int)) (L : Int)
    (h0 : db0.rows = []) (hst : i.listregistereddevices = some ⟨.selectRegistered⟩)
    (hrun : db.runErr .selectRegistered = none) (hadd : addAll i db0 calls = some db) :
    ∃ (it : DeviceIter) (devs : List Device),
      (i.ListRegisteredDevices db L).2 = some it ∧
      devs.length = (calls.filter fun p => p.2 = 1 ∧ p.1.LicenseStatusFk = L).length ∧
      (∀ m, it.calls (devs.length + m) =
        devs.map (fun d => (d, none)) ++ List.replicate m (Device.zero, some .NotFound)) ∧
      List.Perm devs
        ((calls.filter fun p => p.2 = 1 ∧ p.1.LicenseStatusFk = L).map fun p =>
          (⟨p.1.DeviceId, p.1.DeviceName, p.1.Timestamp⟩ : Device)) := by
  obtain ⟨ids, hlen, hdb⟩ := addAll_rows i calls db0 db hadd
  have hrows : db.rows = (ids.zip calls).map fun p => rowOf p.1 p.2.1 p.2.2 := by
    rw [hdb]; simp [h0]
  let Z := (ids.zip calls).filter fun z => decide (z.2.2 = 1 ∧ z.2.1.LicenseStatusFk = L)
  have hR : (db.rows.filter fun r => r.license_status_fk = L ∧ r.type = 1) =
      Z.map fun p => rowOf p.1 p.2.1 p.2.2 := by
    rw [hrows, List.filter_map]
    congr 1
    apply List.filter_congr
    intro z _
    simp [rowOf, and_comm]
  have hproj := filter_zip_snd ids calls (fun p => decide (p.2 = 1 ∧ p.1.LicenseStatusFk = L))
    (fun p => (⟨p.1.DeviceId, p.1.DeviceName, p.1.Timestamp⟩ : Device)) hlen
  have hcount := congrArg List.length hproj
  simp only [List.length_map] at hcount
  refine ⟨.cursor (Z.map fun p => rowOf p.1 p.2.1 p.2.2),
    Z.map (fun z => ⟨z.2.1.DeviceId, z.2.1.DeviceName, z.2.1.Timestamp⟩), ?_, ?_, ?_, ?_⟩
  · simp only [dbTransactions.ListRegisteredDevices, hst, Stmt.Query, DB.run, hrun]
    rw [hR]
  · simp only [List.length_map]
    exact hcount
  · intro m
    have hc := device_calls_cursor (Z.map fun p => rowOf p.1 p.2.1 p.2.2) m
    simp only [List.length_map, List.map_map] at hc ⊢
    rw [hc]
    rfl
  · exact List.Perm.of_eq hproj

/-- Witness of C4: the scenario of the claim (one registration of "dev-1",
one Device), and a second one where "dev-1" registers, returns and registers
again: two Devices, one per registration event. -/
theorem registered_devices_of_added_witness :
    (addAll openedStore emptyDB [(kindle 100, 1)] =
        some { emptyDB with rows := [rowOf 1 (kindle 100) 1] } ∧
      ∃ it, (openedStore.ListRegisteredDevices
          { emptyDB with rows := [rowOf 1 (kindle 100) 1] } 7).2 = some it ∧
        it.calls 2 = [(⟨"dev-1", "Kindle", 100⟩, none), (Device.zero, some .NotFound)]) ∧
      (addAll openedStore emptyDB [(kindle 100, 1), (kindle 200, 3), (kindle 300, 1)] =
        some { emptyDB with rows :=
          [rowOf 1 (kindle 100) 1, rowOf 2 (kindle 200) 3, rowOf 3 (kindle 300) 1] } ∧
      ∃ (it : DeviceIter) (devs : List Device),
        (openedStore.ListRegisteredDevices { emptyDB with rows :=
          [rowOf 1 (kindle 100) 1, rowOf 2 (kindle 200) 3, rowOf 3 (kindle 300) 1] } 7).2 =
            some it ∧
        devs.length = 2 ∧
        (∀ m, it.calls (devs.length + m) =
          devs.map (fun d => (d, none)) ++ List.replicate m (Device.zero, some .NotFound)) ∧
        List.Perm devs [⟨"dev-1", "Kindle", 100⟩, ⟨"dev-1", "Kindle", 300⟩]) := by
  refine ⟨⟨rfl, ?_⟩, rfl, ?_⟩
  · obtain ⟨it, devs, h1, -, h3, h4⟩ := registered_devices_of_added openedStore emptyDB
      { emptyDB with rows := [rowOf 1 (kindle 100) 1] } [(kindle 100, 1)] 7 rfl rfl rfl rfl
    have hd : devs = [⟨"dev-1", "Kindle", 100⟩] :=
      List.perm_singleton.mp (h4 : List.Perm devs [⟨"dev-1", "Kindle", 100⟩])
    subst hd
    exact ⟨it, h1, h3 1⟩
  · exact registered_devices_of_added openedStore emptyDB
      { emptyDB with rows :=
        [rowOf 1 (kindle 100) 1, rowOf 2 (kindle 200) 3, rowOf 3 (kindle 300) 1] }
      [(kindle 100, 1), (kindle 200, 3), (kindle 300, 1)] 7 rfl rfl rfl rfl

/-! ## `CheckDeviceStatus` -/

/-- The lookup of `CheckDeviceStatus` has a row as soon as one row of the
table matches the license and the device. -/
theorem lastFirst_ne_nil (rows : List Row) (L : Int) (D : String)
    (h : ∃ r ∈ rows, r.license_status_fk = L ∧ r.device_id = some D) :
    ∃ r0 rest, lastFirst rows L D = r0 :: rest := by
  obtain ⟨r, hr, hL, hD⟩ := h
  have hmem : r ∈ lastFirst rows L D := by
    unfold lastFirst
    rw [(List.perm_insertionSort _ _).mem_iff]
    simp [List.mem_filter, hr, hL, hD]
  cases hl : lastFirst rows L D with
  | nil => rw [hl] at hmem; cases hmem
  | cons r0 rest => exact ⟨r0, rest, rfl⟩

/-- The lookup of `CheckDeviceStatus` has no row when no row of the table
matches the license and the device. -/
theorem lastFirst_eq_nil (rows : List Row) (L : Int) (D : String)
    (h : ∀ r ∈ rows, ¬ (r.license_status_fk = L ∧ r.device_id = some D)) :
    lastFirst rows L D = [] := by
  have hf : (rows.filter fun r => r.license_status_fk = L ∧ r.device_id = some D) = [] := by
    rw [List.filter_eq_nil_iff]
    intro r hr
    simpa using h r hr
  unfold lastFirst
  rw [hf]
  rfl

/-- Claim C10.  With the statement that `Open` prepares: when the engine
serves the lookup and a row matches the license and the device,
`CheckDeviceStatus` returns a nil error and the empty string; when the lookup
returns an error (the error of the engine, or `sql.ErrNoRows` when no row
matches), it returns that error and the string that `status.GetStatus` writes
for the type code 0. -/
theorem status_mapped_only_on_error (GetStatus : Int → String → String) (i : dbTransactions)
    (db : DB) (L : Int) (D : String) (hst : i.checkdevicestatus = some ⟨.selectLastType⟩) :
    ((db.runErr .selectLastType = none ∧
        ∃ r ∈ db.rows, r.license_status_fk = L ∧ r.device_id = some D) →
        (i.CheckDeviceStatus GetStatus db L D).2 = some ("", none)) ∧
      (∀ err, db.runErr .selectLastType = some err →
        (i.CheckDeviceStatus GetStatus db L D).2 = some (GetStatus 0 "", some err)) ∧
      ((db.runErr .selectLastType = none ∧
        ∀ r ∈ db.rows, ¬ (r.license_status_fk = L ∧ r.device_id = some D)) →
        (i.CheckDeviceStatus GetStatus db L D).2 = some (GetStatus 0 "", some .ErrNoRows)) := by
  refine ⟨?_, ?_, ?_⟩
  · rintro ⟨hrun, hex⟩
    obtain ⟨r0, rest, hl⟩ := lastFirst_ne_nil db.rows L D hex
    simp [dbTransactions.CheckDeviceStatus, hst, Stmt.Query, DB.run, hrun, hl, scanType]
  · intro err hrun
    simp [dbTransactions.CheckDeviceStatus, hst, Stmt.Query, DB.run, hrun, scanType]
  · rintro ⟨hrun, hno⟩
    have hl := lastFirst_eq_nil db.rows L D hno
    simp [dbTransactions.CheckDeviceStatus, hst, Stmt.Query, DB.run, hrun, hl, scanType]

/-- Witness of C10: after the registration and the return of "dev-1" on
license 7 the status is empty with a nil error; on the empty table and on the
engine that fails, the status is the sample name of code 0. -/
theorem status_mapped_only_on_error_witness :
    (openedStore.CheckDeviceStatus sampleGetStatus
        { emptyDB with rows := [rowOf 1 (kindle 100) 1, rowOf 2 (kindle 200) 3] }
        7 "dev-1").2 = some ("", none) ∧
      (openedStore.CheckDeviceStatus sampleGetStatus downDB 7 "dev-1").2 =
        some ("ready", some (.Storage 2)) ∧
      (openedStore.CheckDeviceStatus sampleGetStatus emptyDB 7 "dev-1").2 =
        some ("ready", some .ErrNoRows) :=
  ⟨(status_mapped_only_on_error sampleGetStatus openedStore
      { emptyDB with rows := [rowOf 1 (kindle 100) 1, rowOf 2 (kindle 200) 3] }
      7 "dev-1" rfl).1 ⟨rfl, rowOf 1 (kindle 100) 1, by decide, rfl, rfl⟩,
    (status_mapped_only_on_error sampleGetStatus openedStore downDB 7 "dev-1" rfl).2.1
      (.Storage 2) rfl,
    (status_mapped_only_on_error sampleGetStatus openedStore emptyDB 7 "dev-1" rfl).2.2
      ⟨rfl, by decide⟩⟩

/-- Claim C5, the code at the failing input.  Device "dev-1" of license 7 has
events with type codes 1, 2, 3 at the timestamps 100 < 200 < 300 (and, in the
scenario of the claim, codes 1 and 3 at 100 < 200).  The lookup selects the
most recent event, of type code 3, yet `CheckDeviceStatus` returns the empty
string with a nil error for every `status.GetStatus`: no name is derived from
the code of the most recent event. -/
theorem device_status_empty_after_events (GetStatus : Int → String → String) :
    (addAll openedStore emptyDB [(kindle 100, 1), (kindle 200, 2), (kindle 300, 3)] =
        some { emptyDB with rows :=
          [rowOf 1 (kindle 100) 1, rowOf 2 (kindle 200) 2, rowOf 3 (kindle 300) 3] } ∧
      ((lastFirst [rowOf 1 (kindle 100) 1, rowOf 2 (kindle 200) 2, rowOf 3 (kindle 300) 3]
        7 "dev-1").take 1).map Row.type = [3] ∧
      (openedStore.CheckDeviceStatus GetStatus { emptyDB with rows :=
          [rowOf 1 (kindle 100) 1, rowOf 2 (kindle 200) 2, rowOf 3 (kindle 300) 3] }
        7 "dev-1").2 = some ("", none)) ∧
    (addAll openedStore emptyDB [(kindle 100, 1), (kindle 200, 3)] =
        some { emptyDB with rows := [rowOf 1 (kindle 100) 1, rowOf 2 (kindle 200) 3] } ∧
      ((lastFirst [rowOf 1 (kindle 100) 1, rowOf 2 (kindle 200) 3] 7 "dev-1").take 1).map
        Row.type = [3] ∧
      (openedStore.CheckDeviceStatus GetStatus { emptyDB with rows :=
          [rowOf 1 (kindle 100) 1, rowOf 2 (kindle 200) 3] } 7 "dev-1").2 = some ("", none)) :=
  ⟨⟨rfl, by decide, rfl⟩, rfl, by decide, rfl⟩

/-- Claim C6, the code at the failing input.  On the empty table
`CheckDeviceStatus(7, "dev-1")` returns `sql.ErrNoRows` together with the
string that `status.GetStatus` writes for the type code 0: the name mapping is
run, not skipped.  With the sample vocabulary the string is "ready". -/
theorem device_status_maps_zero_code_on_absence :
    (∀ GetStatus : Int → String → String,
        (openedStore.CheckDeviceStatus GetStatus emptyDB 7 "dev-1").2 =
          some (GetStatus 0 "", some .ErrNoRows)) ∧
      (openedStore.CheckDeviceStatus sampleGetStatus emptyDB 7 "dev-1").2 =
        some ("ready", some .ErrNoRows) :=
  ⟨fun _ => rfl, rfl⟩

/-! ## `Open` -/

/-- Claim C7, the code at the failing input.  On an engine where only the
preparation of the statement of `getbylicensestatusid` fails, `Open` returns a
nil error and a store whose `getbylicensestatusid` is nil, and
`GetByLicenseStatusId` on that store faults.  (A failure of the first
preparation, of `get`, is returned.) -/
theorem open_drops_prepare_error :
    faultyDB.Prepare .selectByLicense = .error (.Storage 1) ∧
      (Open faultyDB).2 =
        (some ⟨some ⟨.selectById⟩, none, none, some ⟨.selectLastType⟩,
          some ⟨.selectRegistered⟩⟩, none) ∧
      ((⟨some ⟨.selectById⟩, none, none, some ⟨.selectLastType⟩,
          some ⟨.selectRegistered⟩⟩ : dbTransactions).GetByLicenseStatusId faultyDB 7).2 =
        none ∧
      (Open { emptyDB with prepareErr := fun q =>
          if q = .selectById then some (.Storage 1) else none }).2 =
        (none, some (.Storage 1)) :=
  ⟨rfl, rfl, rfl, rfl⟩

end Transactions
